import Mathlib

/-!
# probe-mtdecc: ECC stability check for mtdblock devices

A shallow embedding of `src/probe-mtdecc.c`.  C strings are lists of
characters, C `int`/`ssize_t` values are integers, the C library and the kernel
are an arbitrary deterministic transition system `Libc σ` over a state type `σ`,
and every call the program makes is recorded, with its result, in a trace.
-/

namespace ProbeMtdEcc

/-! ## Data model -/

/-- Modelled from the spec: `struct mtd_ecc_stats` of `<mtd/mtd-user.h>`, which is
not part of the sources; the spec names a failed-block count and a
corrected-block count (both unsigned 32-bit in the kernel ABI). -/
structure mtd_ecc_stats where
  corrected : Nat
  failed : Nat
  deriving DecidableEq, Repr

/-- The C library and kernel operations used by the program.  Each one maps the
state before the call to the returned value and the state after the call.
`asprintf` receives the text that the format would produce and answers with the
C return value (negative on failure); `ioctl_ECCGETSTATS` answers with the C
return value and the contents of the statistics buffer after the call. -/
structure Libc (σ : Type) where
  asprintf : List Char → σ → Int × σ
  free : List Char → σ → σ
  open_RDONLY : List Char → σ → Int × σ
  ioctl_ECCGETSTATS : Int → σ → (Int × mtd_ecc_stats) × σ
  read : Int → Nat → σ → Int × σ
  close : Int → σ → Int × σ

/-- One call made by the program, with its arguments and its result. -/
inductive Event where
  | asprintf (out : List Char) (ret : Int)
  | free (ptr : List Char)
  | sys_open (path : List Char) (ret : Int)
  | sys_ioctl (fd : Int) (ret : Int) (stats : mtd_ecc_stats)
  | sys_read (fd : Int) (count : Nat) (ret : Int)
  | sys_close (fd : Int)
  deriving DecidableEq, Repr

/-- The two `ULOG_WARN` messages of the program (`ULOG_INFO` is compiled out). -/
inductive LogMsg where
  | open_failed (mtddev : List Char)
  | ecc_failed (mtddev : List Char)
  deriving DecidableEq, Repr

/-- The state threaded through the program: the state of the C library and
kernel, the calls made so far (oldest first) and the warnings logged so far. -/
structure World (σ : Type) where
  st : σ
  trace : List Event
  log : List LogMsg

/-- A world in which nothing has been called or logged yet. -/
def World.init {σ : Type} (s : σ) : World σ := ⟨s, [], []⟩

/-! ## Instrumented calls -/

section calls

variable {σ : Type}

/-- The call `asprintf(&mtdpath, "/dev/mtd%s", arg)`, where `out` is the formatted text. -/
def do_asprintf (K : Libc σ) (out : List Char) (w : World σ) : Int × World σ :=
  let r := K.asprintf out w.st
  (r.1, { w with st := r.2, trace := w.trace ++ [Event.asprintf out r.1] })

/-- The call `free(ptr)`. -/
def do_free (K : Libc σ) (ptr : List Char) (w : World σ) : World σ :=
  { w with st := K.free ptr w.st, trace := w.trace ++ [Event.free ptr] }

/-- The call `open(path, O_RDONLY)`. -/
def do_open (K : Libc σ) (path : List Char) (w : World σ) : Int × World σ :=
  let r := K.open_RDONLY path w.st
  (r.1, { w with st := r.2, trace := w.trace ++ [Event.sys_open path r.1] })

/-- The call `ioctl(fd, ECCGETSTATS, &stat)`. -/
def do_ioctl (K : Libc σ) (fd : Int) (w : World σ) : (Int × mtd_ecc_stats) × World σ :=
  let r := K.ioctl_ECCGETSTATS fd w.st
  (r.1, { w with st := r.2, trace := w.trace ++ [Event.sys_ioctl fd r.1.1 r.1.2] })

/-- The call `read(fd, buf, count)`; the bytes read are never inspected by the program. -/
def do_read (K : Libc σ) (fd : Int) (count : Nat) (w : World σ) : Int × World σ :=
  let r := K.read fd count w.st
  (r.1, { w with st := r.2, trace := w.trace ++ [Event.sys_read fd count r.1] })

/-- The call `close(fd)`; the program ignores the return value. -/
def do_close (K : Libc σ) (fd : Int) (w : World σ) : World σ :=
  { w with st := (K.close fd w.st).2, trace := w.trace ++ [Event.sys_close fd] }

/-- The call `ULOG_WARN(...)`: the message is appended to the log. -/
def ulog_warn (m : LogMsg) (w : World σ) : World σ :=
  { w with log := w.log ++ [m] }

end calls

/-! ## The program -/

/-- The C library function `strstr(haystack, needle)`: the tail of `haystack`
that starts at the first occurrence of `needle`, or `none` (a null pointer)
when there is no occurrence. -/
def strstr : List Char → List Char → Option (List Char)
  | [], needle => if needle.isPrefixOf [] then some [] else none
  | c :: cs, needle =>
    if needle.isPrefixOf (c :: cs) then some (c :: cs) else strstr cs needle

/-- The string literal `"mtdblock"`. -/
def mtdblock : List Char := "mtdblock".toList

/-- The literal part `"/dev/mtd"` of the format `"/dev/mtd%s"`. -/
def dev_mtd : List Char := "/dev/mtd".toList

/-- The value of `sizeof(buf)` for `char buf[512]`. -/
def sizeof_buf : Nat := 512

/-- The function `mtd_ecc_invalid` (lines 48-90).  `rval` starts as `false` (0);
a failed `open` logs a warning and returns at once; otherwise the first
statistics query either fails (nothing more is done) or is followed by the
short-circuit conjunction of lines 77-79, whose failure logs a warning and sets
`rval` to `true` (1); finally the descriptor is closed.  The comparison
`sizeof(buf) == read(...)` is made on `size_t`; the conversion is injective on
the values of `ssize_t`, so it holds exactly when `read` returned 512. -/
def mtd_ecc_invalid {σ : Type} (K : Libc σ) (mtddev : List Char) (w : World σ) :
    Int × World σ :=
  let rval : Int := 0
  let (fd, w) := do_open K mtddev w
  if fd = -1 then
    (rval, ulog_warn (LogMsg.open_failed mtddev) w)
  else
    let (q1, w) := do_ioctl K fd w
    let (rval, w) :=
      if q1.1 ≠ 0 then
        (rval, w)
      else
        let stat1 := q1.2
        let (n, w) := do_read K fd sizeof_buf w
        let (good, w) :=
          if (sizeof_buf : Int) = n then
            let (q2, w) := do_ioctl K fd w
            if q2.1 = 0 then
              (decide (stat1.failed = q2.2.failed), w)
            else
              (false, w)
          else
            (false, w)
        if good then
          (rval, w)
        else
          (1, ulog_warn (LogMsg.ecc_failed mtddev) w)
    let w := do_close K fd w
    (rval, w)

/-- The function `check_invalid_mtdblock` (lines 104-125): when `strstr` finds
`"mtdblock"` and `asprintf` of `"/dev/mtd"` followed by the text after the
eight characters of the match succeeds, the verdict is that of
`mtd_ecc_invalid` on the constructed path, which is then freed; otherwise the
verdict is `false` (0). -/
def check_invalid_mtdblock {σ : Type} (K : Libc σ) (devpath : List Char) (w : World σ) :
    Int × World σ :=
  let rval : Int := 0
  match strstr devpath mtdblock with
  | none => (rval, w)
  | some tmp =>
    let mtdpath := dev_mtd ++ tmp.drop 8
    let (r, w) := do_asprintf K mtdpath w
    if 0 ≤ r then
      let (rval, w) := mtd_ecc_invalid K mtdpath w
      let w := do_free K mtdpath w
      (rval, w)
    else
      (rval, w)

/-! ## Vocabulary of the properties -/

/-- What the kernel answers when, from state `s`, the calls `open`, `ioctl`,
`read` of `sizeof_buf` bytes and `ioctl` are made in this order on `mtddev`
(each with the state left by the previous one). -/
structure Answers (σ : Type) where
  opened : Int × σ
  query1 : (Int × mtd_ecc_stats) × σ
  nread : Int × σ
  query2 : (Int × mtd_ecc_stats) × σ

/-- The answers of `K` to the four device calls of the protocol, from state `s`. -/
def answers {σ : Type} (K : Libc σ) (mtddev : List Char) (s : σ) : Answers σ :=
  let o := K.open_RDONLY mtddev s
  let q1 := K.ioctl_ECCGETSTATS o.1 o.2
  let r := K.read o.1 sizeof_buf q1.2
  let q2 := K.ioctl_ECCGETSTATS o.1 r.2
  ⟨o, q1, r, q2⟩

/-- No occurrence of `n` starts inside `p` when `p` is followed by `n`: the
occurrence right after `p` is the first one. -/
def FirstAt (p n : List Char) : Prop :=
  ∀ i, i < p.length → ¬ n <+: (p ++ n).drop i

/-- The predicate `FirstAt` is decided by trying every position of `p`. -/
instance FirstAt.decidable (p n : List Char) : Decidable (FirstAt p n) := by
  unfold FirstAt; infer_instance

/-- The descriptors returned by the successful `open` calls of a trace. -/
def opened_fds : List Event → List Int
  | [] => []
  | Event.sys_open _ ret :: es => if ret = -1 then opened_fds es else ret :: opened_fds es
  | _ :: es => opened_fds es

/-- The descriptors passed to the `close` calls of a trace. -/
def closed_fds : List Event → List Int
  | [] => []
  | Event.sys_close fd :: es => fd :: closed_fds es
  | _ :: es => closed_fds es

/-- The strings constructed by the successful `asprintf` calls of a trace. -/
def allocated : List Event → List (List Char)
  | [] => []
  | Event.asprintf out ret :: es => if 0 ≤ ret then out :: allocated es else allocated es
  | _ :: es => allocated es

/-- The strings passed to the `free` calls of a trace. -/
def freed : List Event → List (List Char)
  | [] => []
  | Event.free ptr :: es => ptr :: freed es
  | _ :: es => freed es

/-- The calls made on a device or descriptor: `open`, `ioctl`, `read`, `close`. -/
def Event.isDeviceCall : Event → Bool
  | Event.sys_open _ _ => true
  | Event.sys_ioctl _ _ _ => true
  | Event.sys_read _ _ _ => true
  | Event.sys_close _ => true
  | _ => false

/-- The calls made on an open descriptor: `ioctl`, `read`, `close`. -/
def Event.isDescriptorCall : Event → Bool
  | Event.sys_ioctl _ _ _ => true
  | Event.sys_read _ _ _ => true
  | Event.sys_close _ => true
  | _ => false

/-- The operation sequence "open, stats query, read of 512 bytes, second stats
query, close" with the answers of `K` from state `s`. -/
def single_pass {σ : Type} (K : Libc σ) (mtddev : List Char) (s : σ) : List Event :=
  [Event.sys_open mtddev (answers K mtddev s).opened.1,
   Event.sys_ioctl (answers K mtddev s).opened.1 (answers K mtddev s).query1.1.1
     (answers K mtddev s).query1.1.2,
   Event.sys_read (answers K mtddev s).opened.1 sizeof_buf (answers K mtddev s).nread.1,
   Event.sys_ioctl (answers K mtddev s).opened.1 (answers K mtddev s).query2.1.1
     (answers K mtddev s).query2.1.2,
   Event.sys_close (answers K mtddev s).opened.1]

/-- The operation sequence "open, stats query, read of 512 bytes, close" with
the answers of `K` from state `s`. -/
def short_pass {σ : Type} (K : Libc σ) (mtddev : List Char) (s : σ) : List Event :=
  [Event.sys_open mtddev (answers K mtddev s).opened.1,
   Event.sys_ioctl (answers K mtddev s).opened.1 (answers K mtddev s).query1.1.1
     (answers K mtddev s).query1.1.2,
   Event.sys_read (answers K mtddev s).opened.1 sizeof_buf (answers K mtddev s).nread.1,
   Event.sys_close (answers K mtddev s).opened.1]

/-! ## Simulated devices used to exercise the program -/

/-- A scripted run: the answers the C library and the kernel will give. -/
structure Script where
  asprintf_ret : Int
  open_ret : Int
  query1 : Int × mtd_ecc_stats
  read_ret : Int
  query2 : Int × mtd_ecc_stats
  deriving DecidableEq, Repr

/-- The scripted library: the state counts the statistics queries made so far;
the first query answers `query1`, every later one `query2`. -/
def scripted (sc : Script) : Libc Nat where
  asprintf := fun _ s => (sc.asprintf_ret, s)
  free := fun _ s => s
  open_RDONLY := fun _ s => (sc.open_ret, s)
  ioctl_ECCGETSTATS := fun _ s => (if s = 0 then sc.query1 else sc.query2, s + 1)
  read := fun _ _ s => (sc.read_ret, s)
  close := fun _ s => (0, s)

/-- A flash partition of 1024 bytes with two failed blocks: the state is the
file offset, `open` rewinds it, `read` returns what is left up to `count` and
advances the offset, and the corrected-block counter grows with the offset. -/
def flash1024 : Libc Nat where
  asprintf := fun out s => (out.length, s)
  free := fun _ s => s
  open_RDONLY := fun _ _ => (3, 0)
  ioctl_ECCGETSTATS := fun _ s => ((0, ⟨s, 2⟩), s)
  read := fun _ count s => (((min count (1024 - s) : Nat) : Int), s + min count (1024 - s))
  close := fun _ s => (0, s)

/-- A healthy run: everything succeeds, two failed blocks before and after. -/
def stable_script : Script := ⟨9, 3, (0, ⟨5, 2⟩), 512, (0, ⟨9, 2⟩)⟩

/-- The failed-block count grows from 2 to 3 across the read. -/
def growing_script : Script := ⟨9, 3, (0, ⟨5, 2⟩), 512, (0, ⟨5, 3⟩)⟩

/-- The read returns 100 bytes instead of 512. -/
def short_read_script : Script := ⟨9, 3, (0, ⟨5, 2⟩), 100, (0, ⟨5, 2⟩)⟩

/-- The path construction fails; the device would report instability. -/
def no_memory_script : Script := ⟨-1, 3, (0, ⟨5, 2⟩), 100, (0, ⟨5, 3⟩)⟩

/-- The raw device cannot be opened; it would report instability otherwise. -/
def no_device_script : Script := ⟨9, -1, (0, ⟨5, 2⟩), 100, (0, ⟨5, 3⟩)⟩

/-- The first query fails (not a NAND device); later calls would signal instability. -/
def no_stats_script : Script := ⟨9, 3, (-1, ⟨0, 0⟩), 100, (-1, ⟨5, 3⟩)⟩

/-- A variant of `growing_script` that differs only in the corrected-block counts. -/
def growing_script_corrected : Script := ⟨9, 3, (0, ⟨0, 2⟩), 512, (0, ⟨700, 3⟩)⟩

/-! ## The model of `strstr` -/

/-- The model of `strstr` answers `none` exactly when the needle does not occur. -/
theorem strstr_eq_none_iff (h n : List Char) : strstr h n = none ↔ ¬ n <:+: h := by
  induction h with
  | nil =>
    cases n <;> simp [strstr]
  | cons c cs ih =>
    by_cases hp : n <+: c :: cs
    · simp [strstr, hp, List.infix_cons_iff]
    · simp [strstr, hp, List.infix_cons_iff, ih]

/-- A haystack that starts with the needle is returned whole. -/
theorem strstr_self_append (n s : List Char) : strstr (n ++ s) n = some (n ++ s) := by
  cases h : n ++ s with
  | nil =>
    have : n = [] := (List.append_eq_nil.mp h).1
    simp [strstr, this]
  | cons c cs =>
    have : n <+: c :: cs := h ▸ List.prefix_append n s
    simp [strstr, this]

/-- The result of `strstr` starts at the first occurrence of the needle. -/
theorem strstr_first (p n s : List Char)
    (hfirst : ∀ i, i < p.length → ¬ n <+: (p ++ n).drop i) :
    strstr (p ++ n ++ s) n = some (n ++ s) := by
  induction p with
  | nil => simpa using strstr_self_append n s
  | cons a p ih =>
    have h0 : ¬ n <+: a :: (p ++ n) := by simpa using hfirst 0 (by simp)
    have h1 : ¬ n <+: a :: (p ++ n ++ s) := by
      intro hpre
      apply h0
      have h2 : a :: (p ++ n) <+: a :: (p ++ n ++ s) := by
        simp
      exact List.prefix_of_prefix_length_le hpre h2 (by simp; omega)
    have hrec : ∀ i, i < p.length → ¬ n <+: (p ++ n).drop i := by
      intro i hi
      simpa using hfirst (i + 1) (by simpa using hi)
    simp only [List.cons_append, strstr]
    rw [if_neg (by simpa using h1)]
    simpa using ih hrec

/-- Every result of `strstr` is the tail at a first occurrence of the needle. -/
theorem strstr_eq_some (h n t : List Char) (hs : strstr h n = some t) :
    ∃ p s, h = p ++ n ++ s ∧ t = n ++ s ∧ FirstAt p n := by
  induction h with
  | nil =>
    cases n with
    | nil =>
      simp [strstr] at hs
      exact ⟨[], [], by simp, by simp [← hs], by intro i hi; simp at hi⟩
    | cons a n => simp [strstr] at hs
  | cons c cs ih =>
    by_cases hp : n <+: c :: cs
    · simp [strstr, hp] at hs
      obtain ⟨s, hs2⟩ := hp
      exact ⟨[], s, by simp [hs2], by simp [← hs, hs2], by intro i hi; simp at hi⟩
    · simp [strstr, hp] at hs
      obtain ⟨p, s, h1, h2, h3⟩ := ih hs
      refine ⟨c :: p, s, by simp [h1], h2, ?_⟩
      intro i hi
      cases i with
      | zero =>
        intro hpre
        apply hp
        have : c :: (p ++ n) <+: c :: cs := by
          rw [h1]; simp
        simpa using hpre.trans this
      | succ i =>
        simpa using h3 i (by simpa using hi)

/-! ## The branches of `mtd_ecc_invalid` -/

section branches
variable {σ : Type} (K : Libc σ) (mtddev : List Char) (w : World σ)

/-- The run of `mtd_ecc_invalid` when the open fails. -/
theorem mtd_ecc_invalid_of_open_failed
    (hopen : (answers K mtddev w.st).opened.1 = -1) :
    mtd_ecc_invalid K mtddev w =
      (0, ⟨(answers K mtddev w.st).opened.2,
           w.trace ++ [Event.sys_open mtddev (-1)],
           w.log ++ [LogMsg.open_failed mtddev]⟩) := by
  simp only [answers] at hopen
  simp [mtd_ecc_invalid, do_open, ulog_warn, answers, hopen]

/-- The run of `mtd_ecc_invalid` when the first statistics query fails. -/
theorem mtd_ecc_invalid_of_query1_failed
    (hopen : (answers K mtddev w.st).opened.1 ≠ -1)
    (hq1 : (answers K mtddev w.st).query1.1.1 ≠ 0) :
    mtd_ecc_invalid K mtddev w =
      (0, ⟨(K.close (answers K mtddev w.st).opened.1 (answers K mtddev w.st).query1.2).2,
           w.trace ++ [Event.sys_open mtddev (answers K mtddev w.st).opened.1,
                       Event.sys_ioctl (answers K mtddev w.st).opened.1
                         (answers K mtddev w.st).query1.1.1 (answers K mtddev w.st).query1.1.2,
                       Event.sys_close (answers K mtddev w.st).opened.1],
           w.log⟩) := by
  simp only [answers] at hopen hq1
  simp [mtd_ecc_invalid, do_open, do_ioctl, do_close, answers, hopen, hq1]

/-- The run of `mtd_ecc_invalid` when the read does not return 512. -/
theorem mtd_ecc_invalid_of_short_read
    (hopen : (answers K mtddev w.st).opened.1 ≠ -1)
    (hq1 : (answers K mtddev w.st).query1.1.1 = 0)
    (hread : (answers K mtddev w.st).nread.1 ≠ 512) :
    mtd_ecc_invalid K mtddev w =
      (1, ⟨(K.close (answers K mtddev w.st).opened.1 (answers K mtddev w.st).nread.2).2,
           w.trace ++ [Event.sys_open mtddev (answers K mtddev w.st).opened.1,
                       Event.sys_ioctl (answers K mtddev w.st).opened.1
                         0 (answers K mtddev w.st).query1.1.2,
                       Event.sys_read (answers K mtddev w.st).opened.1 512
                         (answers K mtddev w.st).nread.1,
                       Event.sys_close (answers K mtddev w.st).opened.1],
           w.log ++ [LogMsg.ecc_failed mtddev]⟩) := by
  simp only [answers, sizeof_buf] at hopen hq1 hread
  have hread2 : ¬ (512 : Int) = (K.read (K.open_RDONLY mtddev w.st).1 512
      (K.ioctl_ECCGETSTATS (K.open_RDONLY mtddev w.st).1 (K.open_RDONLY mtddev w.st).2).2).1 :=
    fun h => hread h.symm
  simp [mtd_ecc_invalid, do_open, do_ioctl, do_read, do_close, ulog_warn, answers, hopen, hq1,
    hread2, sizeof_buf]

/-- The run of `mtd_ecc_invalid` when the read returns 512. -/
theorem mtd_ecc_invalid_of_full_read
    (hopen : (answers K mtddev w.st).opened.1 ≠ -1)
    (hq1 : (answers K mtddev w.st).query1.1.1 = 0)
    (hread : (answers K mtddev w.st).nread.1 = 512) :
    mtd_ecc_invalid K mtddev w =
      (if (answers K mtddev w.st).query2.1.1 = 0 ∧
            (answers K mtddev w.st).query1.1.2.failed = (answers K mtddev w.st).query2.1.2.failed
         then 0 else 1,
       ⟨(K.close (answers K mtddev w.st).opened.1 (answers K mtddev w.st).query2.2).2,
           w.trace ++ [Event.sys_open mtddev (answers K mtddev w.st).opened.1,
                       Event.sys_ioctl (answers K mtddev w.st).opened.1
                         0 (answers K mtddev w.st).query1.1.2,
                       Event.sys_read (answers K mtddev w.st).opened.1 512 512,
                       Event.sys_ioctl (answers K mtddev w.st).opened.1
                         (answers K mtddev w.st).query2.1.1 (answers K mtddev w.st).query2.1.2,
                       Event.sys_close (answers K mtddev w.st).opened.1],
           w.log ++ (if (answers K mtddev w.st).query2.1.1 = 0 ∧
            (answers K mtddev w.st).query1.1.2.failed = (answers K mtddev w.st).query2.1.2.failed
              then [] else [LogMsg.ecc_failed mtddev])⟩) := by
  simp only [answers, sizeof_buf] at hopen hq1 hread
  simp only [mtd_ecc_invalid, do_open, do_ioctl, do_read, do_close, ulog_warn, answers,
    sizeof_buf]
  split_ifs <;> simp_all

/-- The verdict of `mtd_ecc_invalid` as a function of the answers of the kernel. -/
theorem mtd_ecc_invalid_verdict_eq (K : Libc σ) (mtddev : List Char) (w : World σ) :
    (mtd_ecc_invalid K mtddev w).1 =
      if (answers K mtddev w.st).opened.1 = -1 then 0
      else if (answers K mtddev w.st).query1.1.1 ≠ 0 then 0
      else if (answers K mtddev w.st).nread.1 = 512 ∧
          (answers K mtddev w.st).query2.1.1 = 0 ∧
          (answers K mtddev w.st).query1.1.2.failed = (answers K mtddev w.st).query2.1.2.failed
        then 0 else 1 := by
  by_cases hopen : (answers K mtddev w.st).opened.1 = -1
  · rw [mtd_ecc_invalid_of_open_failed K mtddev w hopen, if_pos hopen]
  rw [if_neg hopen]
  by_cases hq1 : (answers K mtddev w.st).query1.1.1 = 0
  swap
  · rw [mtd_ecc_invalid_of_query1_failed K mtddev w hopen hq1, if_pos hq1]
  rw [if_neg (not_not.mpr hq1)]
  by_cases hread : (answers K mtddev w.st).nread.1 = 512
  · rw [mtd_ecc_invalid_of_full_read K mtddev w hopen hq1 hread]
    simp [hread]
  · rw [mtd_ecc_invalid_of_short_read K mtddev w hopen hq1 hread]
    simp [hread]

/-- The verdict of `mtd_ecc_invalid` is non-zero only after a successful open
and first query followed by the instability signature. -/
theorem mtd_ecc_invalid_ne_zero (K : Libc σ) (mtddev : List Char) (w : World σ)
    (h : (mtd_ecc_invalid K mtddev w).1 ≠ 0) :
    (answers K mtddev w.st).opened.1 ≠ -1 ∧
      (answers K mtddev w.st).query1.1.1 = 0 ∧
      ((answers K mtddev w.st).nread.1 ≠ 512 ∨
        (answers K mtddev w.st).query2.1.1 ≠ 0 ∨
        (answers K mtddev w.st).query1.1.2.failed ≠ (answers K mtddev w.st).query2.1.2.failed) := by
  by_cases hopen : (answers K mtddev w.st).opened.1 = -1
  · rw [mtd_ecc_invalid_of_open_failed K mtddev w hopen] at h
    exact absurd rfl h
  by_cases hq1 : (answers K mtddev w.st).query1.1.1 = 0
  swap
  · rw [mtd_ecc_invalid_of_query1_failed K mtddev w hopen hq1] at h
    exact absurd rfl h
  refine ⟨hopen, hq1, ?_⟩
  by_cases hread : (answers K mtddev w.st).nread.1 = 512
  swap
  · exact Or.inl hread
  rw [mtd_ecc_invalid_of_full_read K mtddev w hopen hq1 hread] at h
  by_cases hq2 : (answers K mtddev w.st).query2.1.1 = 0
  swap
  · exact Or.inr (Or.inl hq2)
  by_cases hf : (answers K mtddev w.st).query1.1.2.failed = (answers K mtddev w.st).query2.1.2.failed
  · simp [hq2, hf] at h
  · exact Or.inr (Or.inr hf)

end branches

/-! ## The branches of `check_invalid_mtdblock` -/

/-- The literal `"mtdblock"` has eight characters, the offset of `&tmp[8]`. -/
theorem mtdblock_length : mtdblock.length = 8 := by decide

section entry
variable {σ : Type} (K : Libc σ) (w : World σ)

/-- The run of `check_invalid_mtdblock` when `strstr` finds nothing. -/
theorem check_invalid_mtdblock_of_absent (devpath : List Char)
    (h : ¬ mtdblock <:+: devpath) :
    check_invalid_mtdblock K devpath w = (0, w) := by
  have hn : strstr devpath mtdblock = none := (strstr_eq_none_iff _ _).mpr h
  simp [check_invalid_mtdblock, hn]

/-- The run of `check_invalid_mtdblock` on an input split at the first occurrence
of `"mtdblock"`. -/
theorem check_invalid_mtdblock_of_first (p s : List Char) (hfirst : FirstAt p mtdblock) :
    check_invalid_mtdblock K (p ++ mtdblock ++ s) w =
      if 0 ≤ (do_asprintf K (dev_mtd ++ s) w).1 then
        ((mtd_ecc_invalid K (dev_mtd ++ s) (do_asprintf K (dev_mtd ++ s) w).2).1,
          do_free K (dev_mtd ++ s)
            (mtd_ecc_invalid K (dev_mtd ++ s) (do_asprintf K (dev_mtd ++ s) w).2).2)
      else
        (0, (do_asprintf K (dev_mtd ++ s) w).2) := by
  have hs : strstr (p ++ mtdblock ++ s) mtdblock = some (mtdblock ++ s) :=
    strstr_first p mtdblock s hfirst
  have hd : (mtdblock ++ s).drop 8 = s := List.drop_left' mtdblock_length
  simp only [check_invalid_mtdblock, hs, hd]

end entry

/-! ## Traces and resources -/

section traces
variable {σ : Type}

/-- The successfully opened descriptors of a concatenated trace. -/
theorem opened_fds_append (l₁ l₂ : List Event) :
    opened_fds (l₁ ++ l₂) = opened_fds l₁ ++ opened_fds l₂ := by
  induction l₁ with
  | nil => rfl
  | cons e l ih =>
    cases e with
    | sys_open path ret => by_cases h : ret = -1 <;> simp [opened_fds, h, ih]
    | _ => simp [opened_fds, ih]

/-- The closed descriptors of a concatenated trace. -/
theorem closed_fds_append (l₁ l₂ : List Event) :
    closed_fds (l₁ ++ l₂) = closed_fds l₁ ++ closed_fds l₂ := by
  induction l₁ with
  | nil => rfl
  | cons e l ih =>
    cases e <;> simp [closed_fds, ih]

/-- The constructed strings of a concatenated trace. -/
theorem allocated_append (l₁ l₂ : List Event) :
    allocated (l₁ ++ l₂) = allocated l₁ ++ allocated l₂ := by
  induction l₁ with
  | nil => rfl
  | cons e l ih =>
    cases e with
    | asprintf out ret => by_cases h : 0 ≤ ret <;> simp [allocated, h, ih]
    | _ => simp [allocated, ih]

/-- The freed strings of a concatenated trace. -/
theorem freed_append (l₁ l₂ : List Event) :
    freed (l₁ ++ l₂) = freed l₁ ++ freed l₂ := by
  induction l₁ with
  | nil => rfl
  | cons e l ih =>
    cases e <;> simp [freed, ih]

/-- The calls made by one run of `mtd_ecc_invalid`: device calls only, every
opened descriptor closed by the last call. -/
theorem mtd_ecc_invalid_trace (K : Libc σ) (mtddev : List Char) (w : World σ) :
    ∃ new, (mtd_ecc_invalid K mtddev w).2.trace = w.trace ++ new ∧
      closed_fds new = opened_fds new ∧ (opened_fds new).length ≤ 1 ∧
      allocated new = [] ∧ freed new = [] ∧
      (∀ e ∈ new, e.isDeviceCall = true) ∧
      (∀ fd, Event.sys_close fd ∈ new → new.getLast? = some (Event.sys_close fd)) := by
  by_cases hopen : (answers K mtddev w.st).opened.1 = -1
  · rw [mtd_ecc_invalid_of_open_failed K mtddev w hopen]
    exact ⟨_, rfl, by simp [closed_fds, opened_fds], by simp [opened_fds],
      by simp [allocated], by simp [freed], by simp [Event.isDeviceCall], by simp⟩
  by_cases hq1 : (answers K mtddev w.st).query1.1.1 = 0
  swap
  · rw [mtd_ecc_invalid_of_query1_failed K mtddev w hopen hq1]
    exact ⟨_, rfl, by simp [closed_fds, opened_fds, hopen], by simp [opened_fds, hopen],
      by simp [allocated], by simp [freed], by simp [Event.isDeviceCall], by simp⟩
  by_cases hread : (answers K mtddev w.st).nread.1 = 512
  · rw [mtd_ecc_invalid_of_full_read K mtddev w hopen hq1 hread]
    exact ⟨_, rfl, by simp [closed_fds, opened_fds, hopen], by simp [opened_fds, hopen],
      by simp [allocated], by simp [freed], by simp [Event.isDeviceCall], by simp⟩
  · rw [mtd_ecc_invalid_of_short_read K mtddev w hopen hq1 hread]
    exact ⟨_, rfl, by simp [closed_fds, opened_fds, hopen], by simp [opened_fds, hopen],
      by simp [allocated], by simp [freed], by simp [Event.isDeviceCall], by simp⟩

end traces

/-! ## Properties of the specification -/

section claims
variable {σ : Type}

/-- C1: for every input that does not contain "mtdblock", `check_invalid_mtdblock`
returns 0 (proceed) and leaves the world as it found it: no raw path is built
and no device is opened, queried or read (the trace, the log and the state of
the library and kernel are unchanged). -/
theorem check_invalid_mtdblock_without_mtdblock (K : Libc σ) (devpath : List Char)
    (w : World σ) (h : ¬ mtdblock <:+: devpath) :
    (check_invalid_mtdblock K devpath w).1 = 0 ∧
      (check_invalid_mtdblock K devpath w).2 = w := by
  rw [check_invalid_mtdblock_of_absent K w devpath h]
  exact ⟨rfl, rfl⟩

/-- Witness of C1 on "/dev/sda1", with a device that would report instability. -/
theorem check_invalid_mtdblock_without_mtdblock_witness :
    ¬ mtdblock <:+: "/dev/sda1".toList ∧
      (check_invalid_mtdblock (scripted growing_script) "/dev/sda1".toList (World.init 0)).1 = 0 ∧
      (check_invalid_mtdblock (scripted growing_script) "/dev/sda1".toList (World.init 0)).2
        = World.init 0 :=
  ⟨by decide,
   check_invalid_mtdblock_without_mtdblock (scripted growing_script) "/dev/sda1".toList
     (World.init 0) (by decide)⟩

/-- C2: when the open and the first ECC-stats query succeed, `mtd_ecc_invalid`
returns false (0) if and only if the read of 512 bytes returned exactly 512,
the second ECC-stats query succeeded and the failed-block count of the second
snapshot equals that of the first; in every other case it returns true (1). -/
theorem mtd_ecc_invalid_stable_iff (K : Libc σ) (mtddev : List Char) (w : World σ)
    (hopen : (answers K mtddev w.st).opened.1 ≠ -1)
    (hq1 : (answers K mtddev w.st).query1.1.1 = 0) :
    ((mtd_ecc_invalid K mtddev w).1 = 0 ↔
      ((answers K mtddev w.st).nread.1 = 512 ∧
        (answers K mtddev w.st).query2.1.1 = 0 ∧
        (answers K mtddev w.st).query2.1.2.failed = (answers K mtddev w.st).query1.1.2.failed)) ∧
    ((mtd_ecc_invalid K mtddev w).1 = 1 ↔
      ¬ ((answers K mtddev w.st).nread.1 = 512 ∧
        (answers K mtddev w.st).query2.1.1 = 0 ∧
        (answers K mtddev w.st).query2.1.2.failed = (answers K mtddev w.st).query1.1.2.failed)) := by
  by_cases hread : (answers K mtddev w.st).nread.1 = 512
  · rw [mtd_ecc_invalid_of_full_read K mtddev w hopen hq1 hread]
    by_cases hgood : (answers K mtddev w.st).query2.1.1 = 0 ∧
        (answers K mtddev w.st).query1.1.2.failed = (answers K mtddev w.st).query2.1.2.failed
    · simp [hread, hgood.1, hgood.2]
    · have hgood2 : ¬ ((answers K mtddev w.st).query2.1.1 = 0 ∧
          (answers K mtddev w.st).query2.1.2.failed = (answers K mtddev w.st).query1.1.2.failed) :=
        fun h => hgood ⟨h.1, h.2.symm⟩
      simp only [if_neg hgood]
      simp [hread, hgood2]
  · rw [mtd_ecc_invalid_of_short_read K mtddev w hopen hq1 hread]
    simp [hread]

/-- Witness of C2: failed 2 then 2 with a full read gives false, failed 2 then 3
gives true. -/
theorem mtd_ecc_invalid_stable_iff_witness :
    ((mtd_ecc_invalid (scripted stable_script) "/dev/mtd3".toList (World.init 0)).1 = 0 ∧
      (answers (scripted stable_script) "/dev/mtd3".toList 0).query1.1.2.failed = 2 ∧
      (answers (scripted stable_script) "/dev/mtd3".toList 0).query2.1.2.failed = 2) ∧
    ((mtd_ecc_invalid (scripted growing_script) "/dev/mtd3".toList (World.init 0)).1 = 1 ∧
      (answers (scripted growing_script) "/dev/mtd3".toList 0).query1.1.2.failed = 2 ∧
      (answers (scripted growing_script) "/dev/mtd3".toList 0).query2.1.2.failed = 3) :=
  ⟨⟨(mtd_ecc_invalid_stable_iff (scripted stable_script) "/dev/mtd3".toList (World.init 0)
        (by decide) (by decide)).1.2 (by decide), by decide, by decide⟩,
   ⟨(mtd_ecc_invalid_stable_iff (scripted growing_script) "/dev/mtd3".toList (World.init 0)
        (by decide) (by decide)).2.2 (by decide), by decide, by decide⟩⟩

/-- C3: `check_invalid_mtdblock` returns non-zero (skip) only if the input
contains "mtdblock", the raw path "/dev/mtd" ++ s (s the text after the first
occurrence) was constructed successfully, the raw device was opened
successfully, the first ECC-stats query succeeded and the instability signature
occurred (the read did not return 512, or the second query failed, or the
failed count differs).  In particular, when `asprintf` returns a negative value
the result is 0 and the only call made is that `asprintf`: no device is
opened. -/
theorem check_invalid_mtdblock_skip_only_if (K : Libc σ) (devpath : List Char) (w : World σ) :
    ((check_invalid_mtdblock K devpath w).1 ≠ 0 →
      mtdblock <:+: devpath ∧
      ∃ p s, devpath = p ++ mtdblock ++ s ∧ FirstAt p mtdblock ∧
        0 ≤ (K.asprintf (dev_mtd ++ s) w.st).1 ∧
        (answers K (dev_mtd ++ s) (K.asprintf (dev_mtd ++ s) w.st).2).opened.1 ≠ -1 ∧
        (answers K (dev_mtd ++ s) (K.asprintf (dev_mtd ++ s) w.st).2).query1.1.1 = 0 ∧
        ((answers K (dev_mtd ++ s) (K.asprintf (dev_mtd ++ s) w.st).2).nread.1 ≠ 512 ∨
          (answers K (dev_mtd ++ s) (K.asprintf (dev_mtd ++ s) w.st).2).query2.1.1 ≠ 0 ∨
          (answers K (dev_mtd ++ s) (K.asprintf (dev_mtd ++ s) w.st).2).query1.1.2.failed ≠
            (answers K (dev_mtd ++ s) (K.asprintf (dev_mtd ++ s) w.st).2).query2.1.2.failed)) ∧
    (∀ p s, devpath = p ++ mtdblock ++ s → FirstAt p mtdblock →
      (K.asprintf (dev_mtd ++ s) w.st).1 < 0 →
      (check_invalid_mtdblock K devpath w).1 = 0 ∧
      (check_invalid_mtdblock K devpath w).2.trace =
        w.trace ++ [Event.asprintf (dev_mtd ++ s) (K.asprintf (dev_mtd ++ s) w.st).1]) := by
  constructor
  · intro h
    by_cases hin : mtdblock <:+: devpath
    swap
    · rw [check_invalid_mtdblock_of_absent K w devpath hin] at h
      exact absurd rfl h
    refine ⟨hin, ?_⟩
    have hsome : ∃ t, strstr devpath mtdblock = some t := by
      cases hs : strstr devpath mtdblock with
      | none => exact absurd hin ((strstr_eq_none_iff _ _).mp hs)
      | some t => exact ⟨t, rfl⟩
    obtain ⟨t, ht⟩ := hsome
    obtain ⟨p, s, hdev, -, hfirst⟩ := strstr_eq_some devpath mtdblock t ht
    refine ⟨p, s, hdev, hfirst, ?_⟩
    rw [hdev, check_invalid_mtdblock_of_first K w p s hfirst] at h
    by_cases hok : 0 ≤ (K.asprintf (dev_mtd ++ s) w.st).1
    swap
    · have hok2 : ¬ 0 ≤ (do_asprintf K (dev_mtd ++ s) w).1 := hok
      rw [if_neg hok2] at h
      exact absurd rfl h
    have hok2 : 0 ≤ (do_asprintf K (dev_mtd ++ s) w).1 := hok
    rw [if_pos hok2] at h
    exact ⟨hok, mtd_ecc_invalid_ne_zero K (dev_mtd ++ s) (do_asprintf K (dev_mtd ++ s) w).2 h⟩
  · intro p s hdev hfirst hneg
    have hok2 : ¬ 0 ≤ (do_asprintf K (dev_mtd ++ s) w).1 := not_le.mpr hneg
    rw [hdev, check_invalid_mtdblock_of_first K w p s hfirst, if_neg hok2]
    exact ⟨rfl, rfl⟩

/-- Witness of C3: a short read on "/dev/mtdblock3" gives skip, and a failed
path construction gives proceed with a single `asprintf` call. -/
theorem check_invalid_mtdblock_skip_only_if_witness :
    ((check_invalid_mtdblock (scripted short_read_script) "/dev/mtdblock3".toList
        (World.init 0)).1 ≠ 0 ∧
      mtdblock <:+: "/dev/mtdblock3".toList) ∧
    (((scripted no_memory_script).asprintf (dev_mtd ++ "3".toList) 0).1 < 0 ∧
      (check_invalid_mtdblock (scripted no_memory_script) "/dev/mtdblock3".toList
        (World.init 0)).1 = 0 ∧
      (check_invalid_mtdblock (scripted no_memory_script) "/dev/mtdblock3".toList
        (World.init 0)).2.trace = [Event.asprintf "/dev/mtd3".toList (-1)]) :=
  ⟨⟨by decide,
    ((check_invalid_mtdblock_skip_only_if (scripted short_read_script) "/dev/mtdblock3".toList
        (World.init 0)).1 (by decide)).1⟩,
   ⟨by decide,
    (check_invalid_mtdblock_skip_only_if (scripted no_memory_script) "/dev/mtdblock3".toList
        (World.init 0)).2 "/dev/".toList "3".toList (by decide) (by decide) (by decide)⟩⟩

/-- C4: for every input p ++ "mtdblock" ++ s in which this occurrence of
"mtdblock" is the first one, when the path construction succeeds the raw path
handed to `mtd_ecc_invalid` is exactly "/dev/mtd" ++ s: the result is the
verdict of `mtd_ecc_invalid` on that path, run right after the `asprintf` call,
followed by the `free` of that path; p is discarded and s is not validated. -/
theorem check_invalid_mtdblock_raw_path (K : Libc σ) (p s : List Char) (w : World σ)
    (hfirst : FirstAt p mtdblock)
    (hok : 0 ≤ (K.asprintf (dev_mtd ++ s) w.st).1) :
    check_invalid_mtdblock K (p ++ mtdblock ++ s) w =
      ((mtd_ecc_invalid K (dev_mtd ++ s) (do_asprintf K (dev_mtd ++ s) w).2).1,
        do_free K (dev_mtd ++ s)
          (mtd_ecc_invalid K (dev_mtd ++ s) (do_asprintf K (dev_mtd ++ s) w).2).2) := by
  have hok2 : 0 ≤ (do_asprintf K (dev_mtd ++ s) w).1 := hok
  rw [check_invalid_mtdblock_of_first K w p s hfirst, if_pos hok2]

/-- Witness of C4: "/dev/mtdblock3" gives "/dev/mtd3" and "/dev/mtdblock" gives
"/dev/mtd". -/
theorem check_invalid_mtdblock_raw_path_witness :
    (check_invalid_mtdblock (scripted stable_script) "/dev/mtdblock3".toList (World.init 0) =
      ((mtd_ecc_invalid (scripted stable_script) "/dev/mtd3".toList
          (do_asprintf (scripted stable_script) "/dev/mtd3".toList (World.init 0)).2).1,
        do_free (scripted stable_script) "/dev/mtd3".toList
          (mtd_ecc_invalid (scripted stable_script) "/dev/mtd3".toList
            (do_asprintf (scripted stable_script) "/dev/mtd3".toList (World.init 0)).2).2)) ∧
    (check_invalid_mtdblock (scripted stable_script) "/dev/mtdblock".toList (World.init 0) =
      ((mtd_ecc_invalid (scripted stable_script) "/dev/mtd".toList
          (do_asprintf (scripted stable_script) "/dev/mtd".toList (World.init 0)).2).1,
        do_free (scripted stable_script) "/dev/mtd".toList
          (mtd_ecc_invalid (scripted stable_script) "/dev/mtd".toList
            (do_asprintf (scripted stable_script) "/dev/mtd".toList (World.init 0)).2).2)) :=
  ⟨check_invalid_mtdblock_raw_path (scripted stable_script) "/dev/".toList "3".toList
      (World.init 0) (by decide) (by decide),
   check_invalid_mtdblock_raw_path (scripted stable_script) "/dev/".toList "".toList
      (World.init 0) (by decide) (by decide)⟩

/-- C5: for every mtdblock-shaped input (p ++ "mtdblock" ++ s, first
occurrence) whose derived raw device "/dev/mtd" ++ s cannot be opened (open
returns -1), `check_invalid_mtdblock` returns 0, and none of the calls it makes
is a stats query, a read or a close. -/
theorem check_invalid_mtdblock_open_failed (K : Libc σ) (p s : List Char) (w : World σ)
    (hfirst : FirstAt p mtdblock)
    (hopen : (K.open_RDONLY (dev_mtd ++ s) (K.asprintf (dev_mtd ++ s) w.st).2).1 = -1) :
    (check_invalid_mtdblock K (p ++ mtdblock ++ s) w).1 = 0 ∧
    ∃ new, (check_invalid_mtdblock K (p ++ mtdblock ++ s) w).2.trace = w.trace ++ new ∧
      ∀ e ∈ new, e.isDescriptorCall = false := by
  rw [check_invalid_mtdblock_of_first K w p s hfirst]
  by_cases hok : 0 ≤ (do_asprintf K (dev_mtd ++ s) w).1
  · have hopen2 : (answers K (dev_mtd ++ s) (do_asprintf K (dev_mtd ++ s) w).2.st).opened.1 = -1 :=
      hopen
    rw [if_pos hok, mtd_ecc_invalid_of_open_failed K _ _ hopen2]
    refine ⟨rfl, [Event.asprintf (dev_mtd ++ s) (K.asprintf (dev_mtd ++ s) w.st).1,
      Event.sys_open (dev_mtd ++ s) (-1), Event.free (dev_mtd ++ s)], ?_, ?_⟩
    · simp [do_free, do_asprintf]
    · intro e he
      simp at he
      rcases he with rfl | rfl | rfl <;> rfl
  · rw [if_neg hok]
    refine ⟨rfl, [Event.asprintf (dev_mtd ++ s) (K.asprintf (dev_mtd ++ s) w.st).1], ?_, ?_⟩
    · simp [do_asprintf]
    · intro e he
      simp at he
      subst he
      rfl

/-- Witness of C5 on "/dev/mtdblock3" with a raw device that cannot be opened. -/
theorem check_invalid_mtdblock_open_failed_witness :
    (check_invalid_mtdblock (scripted no_device_script) "/dev/mtdblock3".toList
        (World.init 0)).1 = 0 ∧
    ∃ new, (check_invalid_mtdblock (scripted no_device_script) "/dev/mtdblock3".toList
        (World.init 0)).2.trace = [] ++ new ∧
      ∀ e ∈ new, e.isDescriptorCall = false :=
  check_invalid_mtdblock_open_failed (scripted no_device_script) "/dev/".toList "3".toList
    (World.init 0) (by decide) (by decide)

/-- C6: when the raw device opens but the first ECC-stats query fails,
`mtd_ecc_invalid` returns false (0) and the calls it makes are exactly the open,
that query and the close: neither the read nor a second query is performed,
whatever they would have returned. -/
theorem mtd_ecc_invalid_no_stats (K : Libc σ) (mtddev : List Char) (w : World σ)
    (hopen : (answers K mtddev w.st).opened.1 ≠ -1)
    (hq1 : (answers K mtddev w.st).query1.1.1 ≠ 0) :
    (mtd_ecc_invalid K mtddev w).1 = 0 ∧
    (mtd_ecc_invalid K mtddev w).2.trace =
      w.trace ++ [Event.sys_open mtddev (answers K mtddev w.st).opened.1,
        Event.sys_ioctl (answers K mtddev w.st).opened.1 (answers K mtddev w.st).query1.1.1
          (answers K mtddev w.st).query1.1.2,
        Event.sys_close (answers K mtddev w.st).opened.1] ∧
    (mtd_ecc_invalid K mtddev w).2.st =
      (K.close (answers K mtddev w.st).opened.1 (answers K mtddev w.st).query1.2).2 := by
  rw [mtd_ecc_invalid_of_query1_failed K mtddev w hopen hq1]
  exact ⟨rfl, rfl, rfl⟩

/-- Witness of C6: a device without ECC statistics whose read and second query
would signal instability. -/
theorem mtd_ecc_invalid_no_stats_witness :
    (mtd_ecc_invalid (scripted no_stats_script) "/dev/mtd3".toList (World.init 0)).1 = 0 ∧
    (mtd_ecc_invalid (scripted no_stats_script) "/dev/mtd3".toList (World.init 0)).2.trace =
      [Event.sys_open "/dev/mtd3".toList 3, Event.sys_ioctl 3 (-1) ⟨0, 0⟩, Event.sys_close 3] ∧
    (mtd_ecc_invalid (scripted no_stats_script) "/dev/mtd3".toList (World.init 0)).2.st = 1 :=
  mtd_ecc_invalid_no_stats (scripted no_stats_script) "/dev/mtd3".toList (World.init 0)
    (by decide) (by decide)

/-- C7: two runs of `mtd_ecc_invalid` (on any two kernels, states and paths)
whose answers agree on the open result, both query results, the read result and
both failed-block counts return the same verdict, whatever the corrected-block
counts of the snapshots are. -/
theorem mtd_ecc_invalid_ignores_corrected {τ : Type} (K : Libc σ) (K' : Libc τ)
    (mtddev mtddev' : List Char) (w : World σ) (w' : World τ)
    (hopen : (answers K mtddev w.st).opened.1 = (answers K' mtddev' w'.st).opened.1)
    (hq1 : (answers K mtddev w.st).query1.1.1 = (answers K' mtddev' w'.st).query1.1.1)
    (hread : (answers K mtddev w.st).nread.1 = (answers K' mtddev' w'.st).nread.1)
    (hq2 : (answers K mtddev w.st).query2.1.1 = (answers K' mtddev' w'.st).query2.1.1)
    (hf1 : (answers K mtddev w.st).query1.1.2.failed =
      (answers K' mtddev' w'.st).query1.1.2.failed)
    (hf2 : (answers K mtddev w.st).query2.1.2.failed =
      (answers K' mtddev' w'.st).query2.1.2.failed) :
    (mtd_ecc_invalid K mtddev w).1 = (mtd_ecc_invalid K' mtddev' w').1 := by
  rw [mtd_ecc_invalid_verdict_eq, mtd_ecc_invalid_verdict_eq, hopen, hq1, hread, hq2, hf1, hf2]

/-- Witness of C7: two scripted devices that differ only in the corrected-block
counts (5, 5 against 0, 700). -/
theorem mtd_ecc_invalid_ignores_corrected_witness :
    (answers (scripted growing_script) "/dev/mtd3".toList 0).query2.1.2.corrected ≠
      (answers (scripted growing_script_corrected) "/dev/mtd3".toList 0).query2.1.2.corrected ∧
    (mtd_ecc_invalid (scripted growing_script) "/dev/mtd3".toList (World.init 0)).1 =
      (mtd_ecc_invalid (scripted growing_script_corrected) "/dev/mtd3".toList (World.init 0)).1 :=
  ⟨by decide,
   mtd_ecc_invalid_ignores_corrected (scripted growing_script) (scripted growing_script_corrected)
     "/dev/mtd3".toList "/dev/mtd3".toList (World.init 0) (World.init 0)
     (by decide) (by decide) (by decide) (by decide) (by decide) (by decide)⟩

/-- C8, as stated, fails: on a device whose open and first query succeed and
whose read returns 100 bytes, the calls made are open, stats query, read and
close, without a second stats query. -/
theorem second_query_skipped_after_short_read :
    (answers (scripted short_read_script) "/dev/mtd3".toList 0).opened.1 ≠ -1 ∧
    (answers (scripted short_read_script) "/dev/mtd3".toList 0).query1.1.1 = 0 ∧
    (mtd_ecc_invalid (scripted short_read_script) "/dev/mtd3".toList (World.init 0)).2.trace ≠
      single_pass (scripted short_read_script) "/dev/mtd3".toList 0 ∧
    (mtd_ecc_invalid (scripted short_read_script) "/dev/mtd3".toList (World.init 0)).2.trace =
      [Event.sys_open "/dev/mtd3".toList 3, Event.sys_ioctl 3 0 ⟨5, 2⟩,
        Event.sys_read 3 512 100, Event.sys_close 3] := by
  decide

/-- C8, amended: whenever the open and the first ECC-stats query succeed,
`mtd_ecc_invalid` makes exactly the calls open, stats query, read of 512 bytes,
second stats query, close when the read returned 512, and exactly the calls
open, stats query, read of 512 bytes, close when it returned anything else. -/
theorem mtd_ecc_invalid_single_pass (K : Libc σ) (mtddev : List Char) (w : World σ)
    (hopen : (answers K mtddev w.st).opened.1 ≠ -1)
    (hq1 : (answers K mtddev w.st).query1.1.1 = 0) :
    (mtd_ecc_invalid K mtddev w).2.trace =
      w.trace ++ (if (answers K mtddev w.st).nread.1 = 512 then single_pass K mtddev w.st
        else short_pass K mtddev w.st) := by
  by_cases hread : (answers K mtddev w.st).nread.1 = 512
  · rw [mtd_ecc_invalid_of_full_read K mtddev w hopen hq1 hread, if_pos hread]
    simp [single_pass, hq1, hread, sizeof_buf]
  · rw [mtd_ecc_invalid_of_short_read K mtddev w hopen hq1 hread, if_neg hread]
    simp [short_pass, hq1, sizeof_buf]

/-- Witness of the amended C8 on a full read and on a short read. -/
theorem mtd_ecc_invalid_single_pass_witness :
    (mtd_ecc_invalid (scripted stable_script) "/dev/mtd3".toList (World.init 0)).2.trace =
      [Event.sys_open "/dev/mtd3".toList 3, Event.sys_ioctl 3 0 ⟨5, 2⟩,
        Event.sys_read 3 512 512, Event.sys_ioctl 3 0 ⟨9, 2⟩, Event.sys_close 3] ∧
    (mtd_ecc_invalid (scripted short_read_script) "/dev/mtd3".toList (World.init 0)).2.trace =
      [Event.sys_open "/dev/mtd3".toList 3, Event.sys_ioctl 3 0 ⟨5, 2⟩,
        Event.sys_read 3 512 100, Event.sys_close 3] :=
  ⟨mtd_ecc_invalid_single_pass (scripted stable_script) "/dev/mtd3".toList (World.init 0)
      (by decide) (by decide),
   mtd_ecc_invalid_single_pass (scripted short_read_script) "/dev/mtd3".toList (World.init 0)
      (by decide) (by decide)⟩

/-- C9: on every run of `mtd_ecc_invalid` the descriptors closed are exactly
the descriptors successfully opened (at most one, the same one, once; none when
the open failed) and the close is the last call.  On every run of
`check_invalid_mtdblock` the same holds with the close as the last device call,
and the strings freed are exactly the strings successfully constructed (at most
one, once; none when the construction failed), the free being the last call of
all, after every call of the checker. -/
theorem resource_safety (K : Libc σ) (path : List Char) (w : World σ) :
    (∃ new, (mtd_ecc_invalid K path w).2.trace = w.trace ++ new ∧
      closed_fds new = opened_fds new ∧ (opened_fds new).length ≤ 1 ∧
      (∀ fd, Event.sys_close fd ∈ new → new.getLast? = some (Event.sys_close fd))) ∧
    (∃ new, (check_invalid_mtdblock K path w).2.trace = w.trace ++ new ∧
      closed_fds new = opened_fds new ∧ (opened_fds new).length ≤ 1 ∧
      freed new = allocated new ∧ (allocated new).length ≤ 1 ∧
      (∀ fd, Event.sys_close fd ∈ new →
        (new.filter Event.isDeviceCall).getLast? = some (Event.sys_close fd)) ∧
      (∀ ptr, Event.free ptr ∈ new → new.getLast? = some (Event.free ptr))) := by
  constructor
  · obtain ⟨new, h1, h2, h3, -, -, -, h7⟩ := mtd_ecc_invalid_trace K path w
    exact ⟨new, h1, h2, h3, h7⟩
  · by_cases hin : mtdblock <:+: path
    swap
    · rw [check_invalid_mtdblock_of_absent K w path hin]
      exact ⟨[], by simp, rfl, by simp [opened_fds], rfl, by simp [allocated], by simp, by simp⟩
    have hsome : ∃ t, strstr path mtdblock = some t := by
      cases hs : strstr path mtdblock with
      | none => exact absurd hin ((strstr_eq_none_iff _ _).mp hs)
      | some t => exact ⟨t, rfl⟩
    obtain ⟨t, ht⟩ := hsome
    obtain ⟨p, s, hdev, -, hfirst⟩ := strstr_eq_some path mtdblock t ht
    rw [hdev, check_invalid_mtdblock_of_first K w p s hfirst]
    by_cases hok : 0 ≤ (do_asprintf K (dev_mtd ++ s) w).1
    swap
    · rw [if_neg hok]
      have hok2 : ¬ 0 ≤ (K.asprintf (dev_mtd ++ s) w.st).1 := hok
      refine ⟨[Event.asprintf (dev_mtd ++ s) (K.asprintf (dev_mtd ++ s) w.st).1], ?_, ?_, ?_, ?_,
        ?_, ?_, ?_⟩
      · simp [do_asprintf]
      · simp [closed_fds, opened_fds]
      · simp [opened_fds]
      · simp [freed, allocated, hok2]
      · simp [allocated, hok2]
      · simp
      · simp
    rw [if_pos hok]
    have hok2 : 0 ≤ (K.asprintf (dev_mtd ++ s) w.st).1 := hok
    obtain ⟨new, h1, h2, h3, h4, h5, h6, h7⟩ :=
      mtd_ecc_invalid_trace K (dev_mtd ++ s) (do_asprintf K (dev_mtd ++ s) w).2
    have hfilter : (new ++ [Event.free (dev_mtd ++ s)]).filter Event.isDeviceCall = new := by
      rw [List.filter_append, List.filter_eq_self.mpr h6]
      simp [Event.isDeviceCall]
    refine ⟨Event.asprintf (dev_mtd ++ s) (K.asprintf (dev_mtd ++ s) w.st).1 ::
      (new ++ [Event.free (dev_mtd ++ s)]), ?_, ?_, ?_, ?_, ?_, ?_, ?_⟩
    · simp only [do_free]
      rw [h1]
      simp [do_asprintf]
    · simp [closed_fds, opened_fds, closed_fds_append, opened_fds_append, h2]
    · simpa [opened_fds, opened_fds_append] using h3
    · simp [freed, allocated, freed_append, allocated_append, h4, h5, hok2]
    · simp [allocated, allocated_append, h4, hok2]
    · intro fd hfd
      have hmem : Event.sys_close fd ∈ new := by
        simpa using hfd
      rw [List.filter_cons_of_neg (by simp [Event.isDeviceCall]), hfilter]
      exact h7 fd hmem
    · intro ptr hptr
      have hptr2 : Event.free ptr ∈ new ∨ ptr = dev_mtd ++ s := by
        simpa using hptr
      rcases hptr2 with hmem | rfl
      · have := h6 _ hmem
        simp [Event.isDeviceCall] at this
      · rw [← List.cons_append, List.getLast?_append]
        simp

/-- C10: on a device model where every open succeeds, every stats query
succeeds and reports the same failed-block count `c`, and every read of 512
bytes from a freshly opened and queried descriptor returns 512, two consecutive
calls of `mtd_ecc_invalid` both return false (0), and the verdict of the second
call is that of a call made from the same kernel state with no calls and no
warnings recorded: nothing of the first call is carried over. -/
theorem mtd_ecc_invalid_twice (K : Libc σ) (mtddev : List Char) (w : World σ) (c : Nat)
    (hopen : ∀ path s, (K.open_RDONLY path s).1 ≠ -1)
    (hquery : ∀ fd s, (K.ioctl_ECCGETSTATS fd s).1.1 = 0 ∧
      (K.ioctl_ECCGETSTATS fd s).1.2.failed = c)
    (hread : ∀ path s, (answers K path s).nread.1 = 512) :
    (mtd_ecc_invalid K mtddev w).1 = 0 ∧
    (mtd_ecc_invalid K mtddev (mtd_ecc_invalid K mtddev w).2).1 = 0 ∧
    (mtd_ecc_invalid K mtddev (mtd_ecc_invalid K mtddev w).2).1 =
      (mtd_ecc_invalid K mtddev (World.init (mtd_ecc_invalid K mtddev w).2.st)).1 := by
  have key : ∀ w' : World σ, (mtd_ecc_invalid K mtddev w').1 = 0 := by
    intro w'
    have h1 : (answers K mtddev w'.st).opened.1 ≠ -1 := hopen _ _
    have h2 : (answers K mtddev w'.st).query1.1.1 = 0 := (hquery _ _).1
    have h3 : (answers K mtddev w'.st).query2.1.1 = 0 := (hquery _ _).1
    have h4 : (answers K mtddev w'.st).query1.1.2.failed = c := (hquery _ _).2
    have h5 : (answers K mtddev w'.st).query2.1.2.failed = c := (hquery _ _).2
    rw [mtd_ecc_invalid_verdict_eq, if_neg h1, if_neg (not_not.mpr h2),
      if_pos ⟨hread _ _, h3, h4.trans h5.symm⟩]
  exact ⟨key _, key _, (key _).trans (key _).symm⟩

/-- Witness of C10 on a 1024-byte flash partition whose file offset was left at
1000 by an earlier user. -/
theorem mtd_ecc_invalid_twice_witness :
    (mtd_ecc_invalid flash1024 "/dev/mtd3".toList (World.init 1000)).1 = 0 ∧
    (mtd_ecc_invalid flash1024 "/dev/mtd3".toList
      (mtd_ecc_invalid flash1024 "/dev/mtd3".toList (World.init 1000)).2).1 = 0 ∧
    (mtd_ecc_invalid flash1024 "/dev/mtd3".toList
      (mtd_ecc_invalid flash1024 "/dev/mtd3".toList (World.init 1000)).2).1 =
      (mtd_ecc_invalid flash1024 "/dev/mtd3".toList
        (World.init (mtd_ecc_invalid flash1024 "/dev/mtd3".toList (World.init 1000)).2.st)).1 :=
  mtd_ecc_invalid_twice flash1024 "/dev/mtd3".toList (World.init 1000) 2
    (fun _ _ => by simp [flash1024]) (fun _ _ => ⟨rfl, rfl⟩) (fun _ _ => rfl)

end claims

end ProbeMtdEcc
